import Mathlib

/-!
# Verification of the stock dashboard script (`src/stock_app/app.py`)

Shallow embedding of the data model and operations of the dashboard:

* the per-symbol fetch loop `get_stock_data` (history extremes, last close,
  P/E ratios, per-row error isolation, per-row notes),
* the Google-Sheet ticker-list loader `load_tickers_from_sheet` and the
  source-resolution logic building `final_ticker_list`,
* the display sort `df.sort_values(by=symbol)`,
* the `st.cache_data(ttl=300)` memoization wrapper (modelled from the spec,
  since its semantics live in the streamlit library, not in this repository).

External effects (yfinance network calls) are modelled by an explicit
environment `Env` mapping a symbol to either a value or a raised exception
(`Except` with the exception message). Python floats are idealized as `ℚ`;
`round(x, 2)` is modelled as round-half-to-even at two decimals, matching
Python's `round`.
-/

namespace StockApp

/-- One row of `ticker.history(period="1y")`: the `Low`, `High`, `Close`
columns used by the script. -/
structure HistRow where
  low : ℚ
  high : ℚ
  close : ℚ
deriving DecidableEq

/-- The `ticker.info` fundamentals bundle, restricted to the two keys the
script reads; `info.get(key, None)` yields `none` when the key is absent. -/
structure Info where
  trailingPE : Option ℚ
  forwardPE : Option ℚ
deriving DecidableEq

/-- The external market-data provider (`yfinance`): per symbol, the history
request and the info request each either return a value or raise an
exception, modelled as `Except` carrying the exception message. -/
structure Env where
  history : String → Except String (List HistRow)
  info : String → Except String Info

/-- Value written into a P/E cell: either the `"N/A"` sentinel string or a
number. -/
inductive PEVal where
  | na : PEVal
  | num : ℚ → PEVal
deriving DecidableEq

/-- One row dict appended to `data` in `get_stock_data`; a key that the
script does not put into the dict is `none` (a missing column for that row).
`note` is the `"錯誤"` (error) field, the empty string on success. -/
structure QuoteRecord where
  symbol : String
  low : Option ℚ := none
  high : Option ℚ := none
  close : Option ℚ := none
  trailingPE : Option PEVal := none
  forwardPE : Option PEVal := none
  note : String := ""
deriving DecidableEq

/-- The error note `"查無歷史股價"` — "no historical price data found". -/
def noHistoryNote : String := "查無歷史股價"

/-- The error note `"抓取失敗"` — "fetch failed". -/
def fetchFailedNote : String := "抓取失敗"

/-- Python's `str.upper()`: uppercase every character. -/
def pyUpper (s : String) : String := ⟨s.data.map Char.toUpper⟩

/-- Python's `str.strip()`: drop whitespace from both ends. -/
def pyStrip (s : String) : String :=
  ⟨((s.data.dropWhile Char.isWhitespace).reverse.dropWhile Char.isWhitespace).reverse⟩

/-- `str(symbol).strip().upper()` (line 41 of `app.py`). -/
def normalize (s : String) : String := pyUpper (pyStrip s)

/-- Floor of a rational, computed with floor division on `ℤ`. -/
def floorQ (q : ℚ) : ℤ := Int.fdiv q.num q.den

/-- Python's `round(x, 2)`: round to two decimal places, ties to even. -/
def round2 (q : ℚ) : ℚ :=
  let x := q * 100
  let f := floorQ x
  let r := x - (f : ℚ)
  let n : ℤ :=
    if r < 1 / 2 then f
    else if 1 / 2 < r then f + 1
    else if f % 2 = 0 then f else f + 1
  (n : ℚ) / 100

/-- `min` over the `Low` column of a non-empty history `r :: rs`
(`hist['Low'].min()`). -/
def minLow (r : HistRow) (rs : List HistRow) : ℚ :=
  rs.foldl (fun a x => min a x.low) r.low

/-- `max` over the `High` column of a non-empty history `r :: rs`
(`hist['High'].max()`). -/
def maxHigh (r : HistRow) (rs : List HistRow) : ℚ :=
  rs.foldl (fun a x => max a x.high) r.high

/-- `hist['Close'].iloc[-1]` of a non-empty history `r :: rs`. -/
def lastClose (r : HistRow) (rs : List HistRow) : ℚ :=
  (rs.getLastD r).close

/-- `round(pe, 2) if pe else "N/A"` (lines 72–73): the conditional tests the
value for *truthiness*, so both `None` and `0` map to `"N/A"`. -/
def peCell (pe : Option ℚ) : PEVal :=
  match pe with
  | none => PEVal.na
  | some q => if q = 0 then PEVal.na else PEVal.num (round2 q)

/-- The body of the fetch loop for one already-normalized non-blank symbol
(lines 45–79): the `try` block covers the history request, the column
computations and the info request; any exception raised there is caught and
converted into a row carrying only the symbol and `"抓取失敗"`. An empty
history yields a row carrying only the symbol and `"查無歷史股價"`. -/
def processSymbol (env : Env) (symbol : String) : QuoteRecord :=
  match env.history symbol with
  | Except.error _ => { symbol := symbol, note := fetchFailedNote }
  | Except.ok [] => { symbol := symbol, note := noHistoryNote }
  | Except.ok (r :: rs) =>
    match env.info symbol with
    | Except.error _ => { symbol := symbol, note := fetchFailedNote }
    | Except.ok inf =>
      { symbol := symbol
        low := some (round2 (minLow r rs))
        high := some (round2 (maxHigh r rs))
        close := some (round2 (lastClose r rs))
        trailingPE := some (peCell inf.trailingPE)
        forwardPE := some (peCell inf.forwardPE)
        note := "" }

/-- `get_stock_data` (lines 32–84): iterate the ticker list in order,
normalize each entry, silently skip entries that are blank after
normalization, and emit one row per remaining entry. -/
def get_stock_data (env : Env) (ticker_list : List String) : List QuoteRecord :=
  ticker_list.filterMap (fun s =>
    let symbol := normalize s
    if symbol = "" then none else some (processSymbol env symbol))

/-- The symbol of the row emitted for `s` is `s` itself, on every path. -/
theorem processSymbol_symbol (env : Env) (s : String) :
    (processSymbol env s).symbol = s := by
  unfold processSymbol
  cases env.history s with
  | error e => rfl
  | ok l =>
    cases l with
    | nil => rfl
    | cons r rs =>
      cases env.info s with
      | error e => rfl
      | ok inf => rfl

/-- `get_stock_data` is exactly the per-symbol row builder mapped over the
normalized, non-blank entries of the input list, in order. -/
theorem get_stock_data_eq (env : Env) (L : List String) :
    get_stock_data env L =
      ((L.map normalize).filter (fun n => n ≠ "")).map (processSymbol env) := by
  induction L with
  | nil => rfl
  | cons s t ih =>
    by_cases h : normalize s = ""
    · simpa [get_stock_data, List.filterMap_cons, h] using ih
    · simpa [get_stock_data, List.filterMap_cons, h] using ih

/-! ## Display sort (`df.sort_values(by="代號")`, line 162) -/

/-- The display sort order: rows compared by their symbol column. -/
def symbolLE (a b : QuoteRecord) : Prop := a.symbol ≤ b.symbol

instance : DecidableRel symbolLE := fun a b =>
  inferInstanceAs (Decidable (a.symbol ≤ b.symbol))

instance : IsTotal QuoteRecord symbolLE := ⟨fun a b => le_total a.symbol b.symbol⟩

instance : IsTrans QuoteRecord symbolLE :=
  ⟨fun _ _ _ h1 h2 => le_trans h1 h2⟩

/-- The documented contract of `df.sort_values(by="代號")` (line 162):
the displayed table is a permutation of the rows, sorted ascending by the
symbol column. pandas' default `kind='quicksort'` does not document
stability (only `mergesort`/`stable` do), so the order among rows with
equal symbols is not specified beyond this; the call is therefore embedded
as a relation between the input table and a conforming output. -/
def SortValuesSpec (t out : List QuoteRecord) : Prop :=
  t.Perm out ∧ List.Sorted symbolLE out

/-! ## Ticker-list sources -/

/-- `DEFAULT_TICKERS_STR` (lines 20–28), verbatim. -/
def DEFAULT_TICKERS_STR : String :=
  "ORCL, MU, AVGO, TSM, NFLX, GOOG, META, NVDA, ASML, TSLA, MSFT, AMZN, AAPL, " ++
  "ON, CDNS, GFS, GEV, QCOM, KLAC, LRCX, SMCI, AMAT, INTC, AMD, ARM, GE, VRT, " ++
  "IBM, SAP, ADBE, NOW, CRM, FTNT, PANW, CRWD, APP, VRSK, MRVL, VRSN, DUOL, " ++
  "ZM, CSCO, SNPS, ANET, DELL, MNST, U, CRCL, CCJ, OXY, SNOW, HOOD, PLTR, " ++
  "RBLX, VST, SOFI, TEM, EBAY, SE, SHOP, PDD, PCAR, CAT, WMT, LULU, MS, BAC, " ++
  "CVX, ABBV, NEE, EXPE, BKNG, GEHC, MELI, ANF, GS, AXP, LLY, NVO, REGN, ISRG, " ++
  "ABNB, KO, UBER, UPST, PYPL, CRWV, MRK, UNH, SBUX, V, SNAP, IBM, AFRM, DECK"

/-- `[t.strip() for t in DEFAULT_TICKERS_STR.split(',') if t.strip()]`
(line 115): the embedded default ticker list. -/
def default_list : List String :=
  (DEFAULT_TICKERS_STR.splitOn ",").filterMap
    (fun t => if pyStrip t = "" then none else some (pyStrip t))

/-- `load_tickers_from_sheet` (lines 87–96). The remote CSV read
`pd.read_csv(url, header=None)` followed by `df_sheet[0].dropna()` is
modelled as `Except String (List (Option String))`: an exception message on
failure, otherwise column 0 as a list of cells where an empty (NA) cell is
`none` and is dropped by `dropna`. Returns the cleaned list and whether the
error banner (`st.error`) was shown; on any exception the function shows the
banner and returns the empty list. -/
def load_tickers_from_sheet (resp : Except String (List (Option String))) :
    List String × Bool :=
  match resp with
  | Except.ok rows =>
    ((rows.filterMap id).filter (fun t => t.length < 10 && pyUpper t != "TICKER"),
      false)
  | Except.error _ => ([], true)

/-- The source-resolution branch for a configured `GOOGLE_SHEET_URL`
(lines 106–115): load the sheet; if the resulting list is non-empty use it,
otherwise show the fallback warning (`st.warning`, line 114) and use the
embedded default list. Returns the resolved list and whether that warning
was shown. -/
def final_ticker_list_remote (resp : Except String (List (Option String))) :
    List String × Bool :=
  let sheet := (load_tickers_from_sheet resp).1
  if sheet.isEmpty then (default_list, true) else (sheet, false)

/-! ## Result cache -/

/-- Modelled from the spec: the state of the `st.cache_data(ttl=300)`
memoization around `get_stock_data` (line 31) — streamlit-internal code not
part of this repository. Per the spec it is a single slot holding the key
(the ticker list), the store time, and the cached table. -/
structure Cache where
  entry : Option (List String × ℤ × List QuoteRecord)
deriving DecidableEq

/-- The empty cache (fresh session, nothing memoized). -/
def emptyCache : Cache := ⟨none⟩

/-- Modelled from the spec: a cached call of `get_stock_data` at time `now`.
On a hit (same key, within the 300-second time-to-live) it returns the
cached table unchanged; otherwise it invokes the underlying fetch and stores
the result. The `Bool` reports whether the fetch path ran. -/
def getOrFetch (env : Env) (now : ℤ) (c : Cache) (tickers : List String) :
    List QuoteRecord × Cache × Bool :=
  match c.entry with
  | some (k, t0, v) =>
    if k = tickers ∧ t0 ≤ now ∧ now < t0 + 300 then (v, c, false)
    else
      let v2 := get_stock_data env tickers
      (v2, ⟨some (tickers, now, v2)⟩, true)
  | none =>
    let v2 := get_stock_data env tickers
    (v2, ⟨some (tickers, now, v2)⟩, true)

/-- Modelled from the spec: `st.cache_data.clear()` (lines 131, 148) —
discard any cached entry regardless of age. -/
def invalidate (_c : Cache) : Cache := ⟨none⟩

/-! ## Helper lemmas -/

/-- Counting rows with a given symbol is counting that symbol in the
symbol column. -/
theorem length_filter_symbol_eq_count (l : List QuoteRecord) (s : String) :
    (l.filter (fun r => r.symbol == s)).length =
      (l.map QuoteRecord.symbol).count s := by
  induction l with
  | nil => rfl
  | cons x t ih =>
    by_cases h : x.symbol = s <;>
      simp [List.filter_cons, List.count_cons, h, ih]

/-- The environment raises an exception while handling symbol `n`: either
the history request raises, or the history is non-empty and the info
request raises. -/
def envFails (env : Env) (n : String) : Prop :=
  (∃ e, env.history n = Except.error e) ∨
  (∃ e r rs, env.history n = Except.ok (r :: rs) ∧ env.info n = Except.error e)

/-- A provider whose history request always raises. -/
def failEnv : Env :=
  ⟨fun _ => Except.error "boom", fun _ => Except.ok ⟨none, none⟩⟩

/-! ## Claims -/

/-- C1: for every ticker list and every symbol in it, if an unexpected
failure occurs during that symbol's history/info fetch, `get_stock_data`
emits a row containing only the symbol and the `"抓取失敗"` ("fetch
failed") note and still processes every other non-blank symbol; the batch
function is total, mapping the per-symbol builder over every normalized
non-blank entry, so no exception escapes its boundary. -/
theorem fetch_failure_isolated (env : Env) (L : List String) (s : String)
    (hs : s ∈ L) (hn : normalize s ≠ "") (hf : envFails env (normalize s)) :
    get_stock_data env L =
      ((L.map normalize).filter (fun n => n ≠ "")).map (processSymbol env) ∧
    processSymbol env (normalize s) =
      { symbol := normalize s, note := fetchFailedNote } ∧
    ({ symbol := normalize s, note := fetchFailedNote : QuoteRecord }) ∈
      get_stock_data env L := by
  have h2 : processSymbol env (normalize s) =
      { symbol := normalize s, note := fetchFailedNote } := by
    rcases hf with ⟨e, he⟩ | ⟨e, r, rs, h1, hinfo⟩
    · simp [processSymbol, he]
    · simp [processSymbol, h1, hinfo]
  refine ⟨get_stock_data_eq env L, h2, ?_⟩
  rw [get_stock_data_eq env L, ← h2]
  exact List.mem_map_of_mem _
    (List.mem_filter.2 ⟨List.mem_map_of_mem _ hs, by simp [hn]⟩)

/-- Witness for C1 at a concrete failing provider and list. -/
theorem fetch_failure_isolated_witness :
    ("aapl" ∈ ["aapl", "MSFT"] ∧ normalize "aapl" ≠ "" ∧
      envFails failEnv (normalize "aapl")) ∧
    (get_stock_data failEnv ["aapl", "MSFT"] =
      (((["aapl", "MSFT"].map normalize).filter (fun n => n ≠ "")).map
        (processSymbol failEnv)) ∧
    processSymbol failEnv (normalize "aapl") =
      { symbol := normalize "aapl", note := fetchFailedNote } ∧
    ({ symbol := normalize "aapl", note := fetchFailedNote : QuoteRecord }) ∈
      get_stock_data failEnv ["aapl", "MSFT"]) :=
  ⟨⟨by decide, by decide, Or.inl ⟨"boom", rfl⟩⟩,
    fetch_failure_isolated failEnv ["aapl", "MSFT"] "aapl"
      (by decide) (by decide) (Or.inl ⟨"boom", rfl⟩)⟩

/-- C2: for every ticker list whose normalized non-blank entries are
pairwise distinct (a well-formed list), `get_stock_data` returns exactly
one row per unique non-blank symbol — blank-after-normalization entries are
silently skipped and nothing else is dropped — and the rows appear in input
order (this is the order before the caller's subsequent sort). -/
theorem one_record_per_symbol (env : Env) (L : List String)
    (hU : ((L.map normalize).filter (fun n => n ≠ "")).Nodup) :
    (get_stock_data env L).map QuoteRecord.symbol =
      (L.map normalize).filter (fun n => n ≠ "") ∧
    ∀ s ∈ (L.map normalize).filter (fun n => n ≠ ""),
      ((get_stock_data env L).filter (fun r => r.symbol == s)).length = 1 := by
  have hcomp : QuoteRecord.symbol ∘ processSymbol env = id :=
    funext (processSymbol_symbol env)
  have hmap : (get_stock_data env L).map QuoteRecord.symbol =
      (L.map normalize).filter (fun n => n ≠ "") := by
    rw [get_stock_data_eq, List.map_map, hcomp, List.map_id]
  refine ⟨hmap, fun s hs => ?_⟩
  rw [length_filter_symbol_eq_count, hmap]
  exact List.count_eq_one_of_mem hU hs

/-- Witness for C2 at a concrete list with a blank entry. -/
theorem one_record_per_symbol_witness :
    ((["aapl", " msft ", ""].map normalize).filter (fun n => n ≠ "")).Nodup ∧
    ((get_stock_data failEnv ["aapl", " msft ", ""]).map QuoteRecord.symbol =
      (["aapl", " msft ", ""].map normalize).filter (fun n => n ≠ "") ∧
    ∀ s ∈ (["aapl", " msft ", ""].map normalize).filter (fun n => n ≠ ""),
      ((get_stock_data failEnv ["aapl", " msft ", ""]).filter
        (fun r => r.symbol == s)).length = 1) :=
  ⟨by decide, one_record_per_symbol failEnv ["aapl", " msft ", ""] (by decide)⟩

/-- A provider that returns an empty price history for every symbol. -/
def emptyHistEnv : Env :=
  ⟨fun _ => Except.ok [], fun _ => Except.ok ⟨none, none⟩⟩

/-- C5: for every symbol whose one-year history lookup returns no rows,
`get_stock_data` emits a row equal to the one carrying only the symbol and
the `"查無歷史股價"` ("no historical price data found") note — a non-empty
note, with no numeric price or ratio field populated — and the row for that
symbol still appears in the batch output, so the loop continued. -/
theorem no_history_record (env : Env) (L : List String) (s : String)
    (hs : s ∈ L) (hn : normalize s ≠ "")
    (hh : env.history (normalize s) = Except.ok []) :
    processSymbol env (normalize s) =
      { symbol := normalize s, note := noHistoryNote } ∧
    (processSymbol env (normalize s)).low = none ∧
    (processSymbol env (normalize s)).high = none ∧
    (processSymbol env (normalize s)).close = none ∧
    (processSymbol env (normalize s)).trailingPE = none ∧
    (processSymbol env (normalize s)).forwardPE = none ∧
    noHistoryNote ≠ "" ∧
    processSymbol env (normalize s) ∈ get_stock_data env L := by
  have h1 : processSymbol env (normalize s) =
      { symbol := normalize s, note := noHistoryNote } := by
    simp [processSymbol, hh]
  refine ⟨h1, by rw [h1], by rw [h1], by rw [h1], by rw [h1], by rw [h1],
    by decide, ?_⟩
  rw [get_stock_data_eq]
  exact List.mem_map_of_mem _
    (List.mem_filter.2 ⟨List.mem_map_of_mem _ hs, by simp [hn]⟩)

/-- Witness for C5 at a concrete provider with no history rows. -/
theorem no_history_record_witness :
    ("aapl" ∈ ["aapl"] ∧ normalize "aapl" ≠ "" ∧
      emptyHistEnv.history (normalize "aapl") = Except.ok []) ∧
    (processSymbol emptyHistEnv (normalize "aapl") =
      { symbol := normalize "aapl", note := noHistoryNote } ∧
    (processSymbol emptyHistEnv (normalize "aapl")).low = none ∧
    (processSymbol emptyHistEnv (normalize "aapl")).high = none ∧
    (processSymbol emptyHistEnv (normalize "aapl")).close = none ∧
    (processSymbol emptyHistEnv (normalize "aapl")).trailingPE = none ∧
    (processSymbol emptyHistEnv (normalize "aapl")).forwardPE = none ∧
    noHistoryNote ≠ "" ∧
    processSymbol emptyHistEnv (normalize "aapl") ∈
      get_stock_data emptyHistEnv ["aapl"]) :=
  ⟨⟨by decide, by decide, rfl⟩,
    no_history_record emptyHistEnv ["aapl"] "aapl" (by decide) (by decide) rfl⟩

/-- The table of the spec's sorting example: records for the symbols
`["MSFT", "AAPL", "GOOG"]`. -/
def msftAaplGoog : List QuoteRecord :=
  [{ symbol := "MSFT" }, { symbol := "AAPL" }, { symbol := "GOOG" }]

/-- A successful row for the symbol `"IBM"` (which the default ticker list
contains twice). -/
def ibmRow1 : QuoteRecord := { symbol := "IBM" }

/-- A failed row for the same symbol `"IBM"`. -/
def ibmRow2 : QuoteRecord := { symbol := "IBM", note := fetchFailedNote }

/-- Counterexample to C4 as stated: on the concrete two-row table
`[ibmRow1, ibmRow2]` with equal symbols, the reversed table
`[ibmRow2, ibmRow1]` is a conforming output of `df.sort_values` (a
permutation sorted by symbol — the documented contract, which does not
promise stability for the default `kind='quicksort'`), yet the rows with
symbol `"IBM"` do not keep their original relative order. -/
theorem sort_stability_counterexample :
    SortValuesSpec [ibmRow1, ibmRow2] [ibmRow2, ibmRow1] ∧
    ([ibmRow2, ibmRow1].filter (fun r => r.symbol == "IBM") ≠
      [ibmRow1, ibmRow2].filter (fun r => r.symbol == "IBM")) := by
  refine ⟨⟨List.Perm.swap ibmRow2 ibmRow1 [], ?_⟩, by decide⟩
  simp [List.sorted_cons, symbolLE, ibmRow1, ibmRow2]

/-- Two row lists with the same symbol column are equal whenever equal
symbols force equal rows across them. -/
theorem map_symbol_inj : ∀ (l₁ l₂ : List QuoteRecord),
    l₁.map QuoteRecord.symbol = l₂.map QuoteRecord.symbol →
    (∀ x ∈ l₁, ∀ y ∈ l₂, x.symbol = y.symbol → x = y) → l₁ = l₂
  | [], [], _, _ => rfl
  | [], _ :: _, h, _ => by simp at h
  | _ :: _, [], h, _ => by simp at h
  | a :: t, b :: u, h, hinj => by
    simp only [List.map_cons, List.cons.injEq] at h
    have hab : a = b :=
      hinj a (List.mem_cons_self a t) b (List.mem_cons_self b u) h.1
    have ht : t = u :=
      map_symbol_inj t u h.2
        (fun x hx y hy => hinj x (List.mem_cons_of_mem _ hx)
          y (List.mem_cons_of_mem _ hy))
    rw [hab, ht]

/-- C4 (amended): every conforming output of the display sort is sorted by
symbol ascending; its symbol column is always exactly the ascending sort of
the input symbol column; when the table's symbols are pairwise distinct
(the spec's per-fetch invariant) the whole output is uniquely determined —
so tie order is only observable on duplicate-symbol tables, where it is
implementation-defined; and on the records for `["MSFT", "AAPL", "GOOG"]`
every conforming output is ordered `["AAPL", "GOOG", "MSFT"]`. -/
theorem render_sorted_by_symbol :
    (∀ (t out : List QuoteRecord), SortValuesSpec t out →
      List.Sorted symbolLE out) ∧
    (∀ (t out : List QuoteRecord), SortValuesSpec t out →
      out.map QuoteRecord.symbol =
        List.insertionSort (fun a b : String => a ≤ b)
          (t.map QuoteRecord.symbol)) ∧
    (∀ (t out : List QuoteRecord), SortValuesSpec t out →
      (t.map QuoteRecord.symbol).Nodup →
      out = List.insertionSort symbolLE t) ∧
    (∀ out, SortValuesSpec msftAaplGoog out →
      out.map QuoteRecord.symbol = ["AAPL", "GOOG", "MSFT"]) := by
  have key : ∀ (t out : List QuoteRecord), SortValuesSpec t out →
      out.map QuoteRecord.symbol =
        List.insertionSort (fun a b : String => a ≤ b)
          (t.map QuoteRecord.symbol) := by
    rintro t out ⟨hp, hs⟩
    have hpm : (List.insertionSort (fun a b : String => a ≤ b)
        (t.map QuoteRecord.symbol)).Perm (out.map QuoteRecord.symbol) :=
      (List.perm_insertionSort _ _).trans (hp.map _)
    have hsort := List.sorted_insertionSort (fun a b : String => a ≤ b)
      (t.map QuoteRecord.symbol)
    have hsm : List.Sorted (fun a b : String => a ≤ b)
        (out.map QuoteRecord.symbol) :=
      List.Pairwise.map _ (fun a b hab => hab) hs
    exact (List.eq_of_perm_of_sorted hpm hsort hsm).symm
  refine ⟨fun t out h => h.2, key, ?_, ?_⟩
  · rintro t out hspec hnd
    have h1 : out.map QuoteRecord.symbol =
        (List.insertionSort symbolLE t).map QuoteRecord.symbol := by
      rw [key t out hspec]
      exact (List.map_insertionSort symbolLE (fun a b : String => a ≤ b)
        QuoteRecord.symbol t (fun a _ b _ => Iff.rfl)).symm
    refine map_symbol_inj out _ h1 (fun x hx y hy hxy => ?_)
    exact List.inj_on_of_nodup_map hnd (hspec.1.mem_iff.mpr hx)
      ((List.mem_insertionSort symbolLE).1 hy) hxy
  · intro out hspec
    have hkey := key msftAaplGoog out hspec
    have hm : msftAaplGoog.map QuoteRecord.symbol =
        ["MSFT", "AAPL", "GOOG"] := rfl
    rw [hm] at hkey
    have hAG : ("AAPL" : String) ≤ "GOOG" := by
      rw [String.le_iff_toList_le]; decide
    have hMA : ¬ (("MSFT" : String) ≤ "AAPL") := by
      rw [String.le_iff_toList_le]; decide
    have hMG : ¬ (("MSFT" : String) ≤ "GOOG") := by
      rw [String.le_iff_toList_le]; decide
    rw [hkey]
    simp [List.insertionSort, List.orderedInsert, hAG, hMA, hMG]
    decide

/-- C3 (spec-modelled cache): two `getOrFetch` calls with the identical
ticker list within the 300-second time-to-live window return the identical
table while invoking the underlying fetch only once (the first call
fetches, the second is a pure cache hit); and after `invalidate`, the next
`getOrFetch` always re-invokes the fetch, for every list and time. -/
theorem cache_idempotent_and_invalidate (env : Env) (L : List String)
    (t0 t1 : ℤ) (h0 : t0 ≤ t1) (h1 : t1 < t0 + 300) :
    (getOrFetch env t0 emptyCache L).2.2 = true ∧
    (getOrFetch env t1 (getOrFetch env t0 emptyCache L).2.1 L).1 =
      (getOrFetch env t0 emptyCache L).1 ∧
    (getOrFetch env t1 (getOrFetch env t0 emptyCache L).2.1 L).2.2 = false ∧
    ∀ (c : Cache) (t : ℤ), (getOrFetch env t (invalidate c) L).2.2 = true := by
  have e2 : getOrFetch env t1
      (⟨some (L, t0, get_stock_data env L)⟩ : Cache) L =
      (get_stock_data env L, ⟨some (L, t0, get_stock_data env L)⟩, false) := by
    show (if L = L ∧ t0 ≤ t1 ∧ t1 < t0 + 300 then _ else _) = _
    rw [if_pos ⟨rfl, h0, h1⟩]
  have e1 : getOrFetch env t0 emptyCache L =
      (get_stock_data env L, ⟨some (L, t0, get_stock_data env L)⟩, true) := rfl
  exact ⟨rfl, by simp [e1, e2], by simp [e1, e2], fun c t => rfl⟩

/-- Witness for C3 at a concrete list and times `0` and `10`. -/
theorem cache_idempotent_and_invalidate_witness :
    ((0 : ℤ) ≤ 10 ∧ (10 : ℤ) < 0 + 300) ∧
    ((getOrFetch failEnv 0 emptyCache ["AAPL"]).2.2 = true ∧
    (getOrFetch failEnv 10
      (getOrFetch failEnv 0 emptyCache ["AAPL"]).2.1 ["AAPL"]).1 =
      (getOrFetch failEnv 0 emptyCache ["AAPL"]).1 ∧
    (getOrFetch failEnv 10
      (getOrFetch failEnv 0 emptyCache ["AAPL"]).2.1 ["AAPL"]).2.2 = false ∧
    ∀ (c : Cache) (t : ℤ),
      (getOrFetch failEnv t (invalidate c) ["AAPL"]).2.2 = true) :=
  ⟨⟨by decide, by decide⟩,
    cache_idempotent_and_invalidate failEnv ["AAPL"] 0 10
      (by decide) (by decide)⟩

/-- A provider whose info bundle carries a price/earnings ratio exactly
equal to `0` in both fields, with a one-row history. -/
def peZeroEnv : Env :=
  ⟨fun _ => Except.ok [⟨1, 2, 1⟩], fun _ => Except.ok ⟨some 0, some 0⟩⟩

/-- Counterexample to C6 as stated: the trailing ratio is *present*
(`some 0`) in the info bundle, yet the output field is the `"N/A"`
sentinel, not the ratio rounded to 2 decimal places. -/
theorem pe_present_zero_counterexample :
    peZeroEnv.info "AAPL" = Except.ok { trailingPE := some 0, forwardPE := some 0 } ∧
    (processSymbol peZeroEnv "AAPL").trailingPE = some PEVal.na ∧
    PEVal.na ≠ PEVal.num (round2 0) := by
  refine ⟨rfl, ?_, by simp⟩
  simp [processSymbol, peZeroEnv, peCell]

/-- C6 (amended): for a symbol whose history succeeded, an info bundle
omitting the trailing or forward ratio yields the `"N/A"` sentinel in the
corresponding field — which is never a missing column, and the sentinel is
distinct from every numeric value, in particular zero; a *present and
non-zero* ratio is rounded to 2 decimal places (a present zero ratio also
yields the sentinel, see the truthiness test on lines 72–73). -/
theorem pe_sentinel (env : Env) (s : String) (r : HistRow)
    (rs : List HistRow) (i : Info)
    (hh : env.history s = Except.ok (r :: rs))
    (hi : env.info s = Except.ok i) :
    (i.trailingPE = none → (processSymbol env s).trailingPE = some PEVal.na) ∧
    (i.forwardPE = none → (processSymbol env s).forwardPE = some PEVal.na) ∧
    (∀ q : ℚ, i.trailingPE = some q → q ≠ 0 →
      (processSymbol env s).trailingPE = some (PEVal.num (round2 q))) ∧
    (∀ q : ℚ, i.forwardPE = some q → q ≠ 0 →
      (processSymbol env s).forwardPE = some (PEVal.num (round2 q))) ∧
    (processSymbol env s).trailingPE ≠ none ∧
    (processSymbol env s).forwardPE ≠ none ∧
    (∀ q : ℚ, PEVal.na ≠ PEVal.num q) := by
  have ht : (processSymbol env s).trailingPE = some (peCell i.trailingPE) := by
    simp [processSymbol, hh, hi]
  have hf : (processSymbol env s).forwardPE = some (peCell i.forwardPE) := by
    simp [processSymbol, hh, hi]
  refine ⟨?_, ?_, ?_, ?_, ?_, ?_, fun q => by simp⟩
  · intro h; rw [ht, h]; rfl
  · intro h; rw [hf, h]; rfl
  · intro q h hq; rw [ht, h]; simp [peCell, hq]
  · intro q h hq; rw [hf, h]; simp [peCell, hq]
  · rw [ht]; simp
  · rw [hf]; simp

/-- A provider whose info bundle has no trailing ratio and a forward ratio
of `7`. -/
def peMixedEnv : Env :=
  ⟨fun _ => Except.ok [⟨1, 2, 1⟩], fun _ => Except.ok ⟨none, some 7⟩⟩

/-- Witness for the amended C6 at a concrete provider. -/
theorem pe_sentinel_witness :
    (peMixedEnv.history "AAPL" = Except.ok [⟨1, 2, 1⟩] ∧
      peMixedEnv.info "AAPL" = Except.ok ⟨none, some 7⟩) ∧
    ((Info.trailingPE ⟨none, some 7⟩ = none →
      (processSymbol peMixedEnv "AAPL").trailingPE = some PEVal.na) ∧
    (Info.forwardPE ⟨none, some 7⟩ = none →
      (processSymbol peMixedEnv "AAPL").forwardPE = some PEVal.na) ∧
    (∀ q : ℚ, Info.trailingPE ⟨none, some 7⟩ = some q → q ≠ 0 →
      (processSymbol peMixedEnv "AAPL").trailingPE =
        some (PEVal.num (round2 q))) ∧
    (∀ q : ℚ, Info.forwardPE ⟨none, some 7⟩ = some q → q ≠ 0 →
      (processSymbol peMixedEnv "AAPL").forwardPE =
        some (PEVal.num (round2 q))) ∧
    (processSymbol peMixedEnv "AAPL").trailingPE ≠ none ∧
    (processSymbol peMixedEnv "AAPL").forwardPE ≠ none ∧
    (∀ q : ℚ, PEVal.na ≠ PEVal.num q)) :=
  ⟨⟨rfl, rfl⟩, pe_sentinel peMixedEnv "AAPL" ⟨1, 2, 1⟩ [] ⟨none, some 7⟩ rfl rfl⟩

/-- C9: for a symbol whose history succeeded, an info bundle whose trailing
or forward ratio is exactly `0` yields the `"N/A"` sentinel in the
corresponding field rather than the numeric value `0.00`, because the code
tests the value for truthiness rather than for presence. -/
theorem pe_zero_is_na (env : Env) (s : String) (r : HistRow)
    (rs : List HistRow) (i : Info)
    (hh : env.history s = Except.ok (r :: rs))
    (hi : env.info s = Except.ok i) :
    (i.trailingPE = some 0 → (processSymbol env s).trailingPE = some PEVal.na) ∧
    (i.forwardPE = some 0 → (processSymbol env s).forwardPE = some PEVal.na) ∧
    PEVal.na ≠ PEVal.num (round2 0) := by
  have ht : (processSymbol env s).trailingPE = some (peCell i.trailingPE) := by
    simp [processSymbol, hh, hi]
  have hf : (processSymbol env s).forwardPE = some (peCell i.forwardPE) := by
    simp [processSymbol, hh, hi]
  refine ⟨?_, ?_, by simp⟩
  · intro h; rw [ht, h]; simp [peCell]
  · intro h; rw [hf, h]; simp [peCell]

/-- Witness for C9 at a concrete provider carrying zero ratios. -/
theorem pe_zero_is_na_witness :
    (peZeroEnv.history "MSFT" = Except.ok [⟨1, 2, 1⟩] ∧
      peZeroEnv.info "MSFT" = Except.ok ⟨some 0, some 0⟩) ∧
    ((Info.trailingPE ⟨some 0, some 0⟩ = some 0 →
      (processSymbol peZeroEnv "MSFT").trailingPE = some PEVal.na) ∧
    (Info.forwardPE ⟨some 0, some 0⟩ = some 0 →
      (processSymbol peZeroEnv "MSFT").forwardPE = some PEVal.na) ∧
    PEVal.na ≠ PEVal.num (round2 0)) :=
  ⟨⟨rfl, rfl⟩, pe_zero_is_na peZeroEnv "MSFT" ⟨1, 2, 1⟩ [] ⟨some 0, some 0⟩ rfl rfl⟩

/-- C7: for every failing load of the remote list source (network error,
404, unparseable body — any raised exception, with any message), the
resolver shows the error banner, falls back to the embedded default ticker
list with the fallback warning, and, being a total function, propagates no
failure. -/
theorem remote_failure_falls_back (msg : String) :
    final_ticker_list_remote (Except.error msg) = (default_list, true) ∧
    (load_tickers_from_sheet (Except.error msg)).2 = true :=
  ⟨rfl, rfl⟩

/-- The row filter of the remote sheet loader as the spec words it: drop
the rows that are empty, longer than 9 characters, or equal
case-insensitively to the header sentinel `"TICKER"`; keep the rest in
order. An empty CSV cell is an NA cell (`none`). -/
def specClean (rows : List (Option String)) : List String :=
  rows.filterMap (fun c => c.bind (fun t =>
    if t = "" ∨ 9 < t.length ∨ pyUpper t = "TICKER" then none else some t))

/-- C8: on every successfully loaded remote list whose string cells are
non-empty (pandas delivers empty CSV cells as NA, dropped by `dropna`, so a
cell is never the empty string), the loader returns exactly the rows that
survive the spec's filter — not empty, at most 9 characters, not the
`"TICKER"` header sentinel — in their original order. -/
theorem sheet_filter_matches_spec (rows : List (Option String))
    (hrows : some "" ∉ rows) :
    (load_tickers_from_sheet (Except.ok rows)).1 = specClean rows := by
  induction rows with
  | nil => rfl
  | cons c tl ih =>
    have htl : some "" ∉ tl := fun hmem => hrows (List.mem_cons_of_mem _ hmem)
    have ih2 : ((tl.filterMap id).filter
        (fun t => t.length < 10 && pyUpper t != "TICKER")) = specClean tl :=
      ih htl
    cases c with
    | none =>
      simpa [load_tickers_from_sheet, specClean, List.filterMap_cons] using ih2
    | some t =>
      have hne : t ≠ "" := fun he => hrows (he ▸ List.mem_cons_self _ _)
      by_cases hlen : t.length < 10
      · have h9 : ¬ 9 < t.length := by omega
        by_cases hup : pyUpper t = "TICKER"
        · simp [load_tickers_from_sheet, specClean, List.filterMap_cons,
            List.filter_cons, hlen, hup, ih2]
        · simp [load_tickers_from_sheet, specClean, List.filterMap_cons,
            List.filter_cons, hlen, hup, hne, h9, ih2]
      · have h9 : 9 < t.length := by omega
        simp [load_tickers_from_sheet, specClean, List.filterMap_cons,
          List.filter_cons, hlen, h9, ih2]

/-- A concrete remote sheet: a valid symbol, an NA cell, an over-long row,
the header sentinel in lower case, and another valid symbol. -/
def sheetRows : List (Option String) :=
  [some "AAPL", none, some "ABCDEFGHIJK", some "ticker", some "MSFT"]

/-- Witness for C8 at the concrete sheet. -/
theorem sheet_filter_matches_spec_witness :
    some "" ∉ sheetRows ∧
    (load_tickers_from_sheet (Except.ok sheetRows)).1 = specClean sheetRows :=
  ⟨by decide, sheet_filter_matches_spec sheetRows (by decide)⟩

/-- C10: when the remote source loads successfully but the filtered result
is the empty list, the resolver shows the same fallback warning as on a
load failure and returns the embedded default list, instead of treating the
empty list as a valid terminal state. -/
theorem empty_sheet_falls_back (rows : List (Option String))
    (h : (load_tickers_from_sheet (Except.ok rows)).1 = []) :
    final_ticker_list_remote (Except.ok rows) = (default_list, true) := by
  simp [final_ticker_list_remote, h]

/-- Witness for C10: a sheet holding only the header row loads
successfully, filters to the empty list, and the resolver falls back. -/
theorem empty_sheet_falls_back_witness :
    (load_tickers_from_sheet (Except.ok [some "TICKER"])).1 = [] ∧
    final_ticker_list_remote (Except.ok [some "TICKER"]) =
      (default_list, true) :=
  ⟨by decide, empty_sheet_falls_back [some "TICKER"] (by decide)⟩

end StockApp
